import Mathlib

/-!
Shallow embedding of the queuectl job-queue engine
(src/queuectl/job.py, src/queuectl/storage.py, src/queuectl/worker.py,
src/queuectl/cli.py).

Modelling conventions:
* ISO-8601 UTC timestamp strings are modelled as natural numbers counting
  seconds; lexicographic comparison of ISO strings agrees with numeric
  comparison of the instants they denote, so SQL string comparisons on
  `next_retry_at`/`created_at` become `Nat` comparisons.
* The `locked_at` column may hold a non-null string that fails to parse as
  a timestamp, a case `lock_job` handles specially, so it is modelled as
  `Option (Option Nat)`: `none` is SQL NULL, `some none` is a non-null
  string that `datetime.fromisoformat` rejects, `some (some t)` parses to
  the instant `t`.
* A SQLite row of the `jobs` table is `Row`; the table is a `List Row`.
* `JobStorage._lock` is a non-reentrant `threading.Lock`.  A method that
  enters `with self._lock` while the current call chain already holds the
  lock blocks forever.  The `Exec` result type models this: `withLock held
  body` is `Exec.deadlock` when `held = true`.
* `conn.total_changes > 0` after the UPDATE in `lock_job` is the number of
  rows matching `WHERE id = ?`, i.e. whether the job id exists.
-/

namespace QueueCtl

/-- The `JobState` enum of job.py. -/
inductive JobState where
  | pending
  | processing
  | completed
  | failed
  | dead
deriving DecidableEq

/-- `JobState.value`: the string stored in the `state` column. -/
def JobState.value : JobState → String
  | .pending => "pending"
  | .processing => "processing"
  | .completed => "completed"
  | .failed => "failed"
  | .dead => "dead"

/-- `JobState(s)` on a string: `some` on the five valid values, `none`
models the `ValueError` raised on anything else. -/
def JobState.fromValue : String → Option JobState
  | "pending" => some .pending
  | "processing" => some .processing
  | "completed" => some .completed
  | "failed" => some .failed
  | "dead" => some .dead
  | _ => none

/-- The in-memory `Job` object of job.py.  `locked_by`/`locked_at` are the
attributes set by `_row_to_job` (absent on a freshly constructed job, read
back via `getattr(job, 'locked_by', None)` in `update_job`). -/
structure Job where
  id : String
  command : String
  state : JobState
  attempts : Nat
  max_retries : Nat
  created_at : Nat
  updated_at : Nat
  error_message : Option String
  next_retry_at : Option Nat
  locked_by : Option String
  locked_at : Option (Option Nat)
deriving DecidableEq

/-- A row of the SQLite `jobs` table (storage.py `_init_db`). -/
structure Row where
  id : String
  command : String
  state : String
  attempts : Nat
  max_retries : Nat
  created_at : Nat
  updated_at : Nat
  error_message : Option String
  next_retry_at : Option Nat
  locked_by : Option String
  locked_at : Option (Option Nat)
deriving DecidableEq

/-- The `jobs` table. -/
abbrev Store := List Row

/-- `JobStorage._row_to_job`.  The `ValueError` that `Job.__init__` raises
on an invalid `state` string is modelled as `none`; every row written by
the operations below carries a valid state string. -/
def row_to_job (r : Row) : Option Job :=
  (JobState.fromValue r.state).map fun st =>
    { id := r.id, command := r.command, state := st, attempts := r.attempts,
      max_retries := r.max_retries, created_at := r.created_at,
      updated_at := r.updated_at, error_message := r.error_message,
      next_retry_at := r.next_retry_at, locked_by := r.locked_by,
      locked_at := r.locked_at }

/-- The row the INSERT of `add_job` writes: the nine listed columns; the
lease columns are not in the column list, so they are NULL. -/
def job_to_row (j : Job) : Row :=
  { id := j.id, command := j.command, state := j.state.value,
    attempts := j.attempts, max_retries := j.max_retries,
    created_at := j.created_at, updated_at := j.updated_at,
    error_message := j.error_message, next_retry_at := j.next_retry_at,
    locked_by := none, locked_at := none }

/-- The `sqlite3.IntegrityError` from inserting a duplicate PRIMARY KEY. -/
inductive StorageError where
  | duplicateId
deriving DecidableEq

/-- `JobStorage.add_job`: INSERT, failing when the id already exists. -/
def add_job (s : Store) (j : Job) : Except StorageError Store :=
  if s.any (fun r => r.id = j.id) then .error .duplicateId
  else .ok (s ++ [job_to_row j])

/-- The body of `JobStorage.get_job` (its SELECT plus `_row_to_job`),
without the mutex wrapper. -/
def getJobAtomic (s : Store) (jid : String) : Option Job :=
  (s.find? (fun r => r.id = jid)).bind row_to_job

/-- `JobStorage.update_job`: writes every column except `id` and
`created_at` on the row whose id matches. -/
def update_job (s : Store) (j : Job) : Store :=
  s.map fun r =>
    if r.id = j.id then
      { r with command := j.command, state := j.state.value,
               attempts := j.attempts, max_retries := j.max_retries,
               updated_at := j.updated_at, error_message := j.error_message,
               next_retry_at := j.next_retry_at, locked_by := j.locked_by,
               locked_at := j.locked_at }
    else r

/-- `JobStorage.unlock_job`: clears the two lease columns only. -/
def unlock_job (s : Store) (jid : String) : Store :=
  s.map fun r =>
    if r.id = jid then { r with locked_by := none, locked_at := none }
    else r

/-- The read phase of `lock_job`: the SELECT of `locked_by`/`locked_at`
plus the freshness test.  `true` means the call returns `False` without
writing: that needs a row, a truthy `locked_by`, a truthy `locked_at` that
parses, and an age below 300 seconds; a parse failure or missing
`locked_at` falls through to the UPDATE.  A negative age (`locked_at` in
the future) is below 300 in Python and is `Nat` truncation `now - tL = 0`
here, blocking in both. -/
def lockCheckBlocked (s : Store) (jid : String) (now : Nat) : Bool :=
  match s.find? (fun r => r.id = jid) with
  | none => false
  | some row =>
    match row.locked_by with
    | none => false
    | some _ =>
      match row.locked_at with
      | none => false
      | some none => false
      | some (some tL) => now - tL < 300

/-- The write phase of `lock_job`: the unconditional UPDATE that sets the
lease and `state = 'processing'` on every row whose id matches. -/
def lockWrite (s : Store) (jid wid : String) (now : Nat) : Store :=
  s.map fun r =>
    if r.id = jid then
      { r with locked_by := some wid, locked_at := some (some now),
               state := JobState.processing.value }
    else r

/-- Whether the UPDATE of `lock_job` touches a row
(`conn.total_changes > 0`). -/
def jobExists (s : Store) (jid : String) : Bool :=
  (s.find? (fun r => r.id = jid)).isSome

/-- The body of `JobStorage.lock_job` run without interleaving: read
phase, then, unless blocked, the write phase and the
`total_changes > 0` result.  This is how the body executes when the
caller does not already hold the storage mutex — the mutex serializes it
against other calls in the same process. -/
def lockJobAtomic (s : Store) (jid wid : String) (now : Nat) : Bool × Store :=
  if lockCheckBlocked s jid now then (false, s)
  else (jobExists s jid, lockWrite s jid wid now)

/-- Result of running a storage method under the non-reentrant mutex:
either a value, or the thread blocks forever re-acquiring a lock it
already holds. -/
inductive Exec (α : Type) where
  | deadlock : Exec α
  | ret : α → Exec α
deriving DecidableEq

/-- `with self._lock:` — blocks forever when this thread already holds
the lock. -/
def withLock {α : Type} (held : Bool) (body : Exec α) : Exec α :=
  if held then .deadlock else body

/-- `JobStorage.lock_job` as called with the mutex state `held`. -/
def lock_job (held : Bool) (s : Store) (jid wid : String) (now : Nat) :
    Exec (Bool × Store) :=
  withLock held (.ret (lockJobAtomic s jid wid now))

/-- `JobStorage.get_job` as called with the mutex state `held`. -/
def get_job (held : Bool) (s : Store) (jid : String) : Exec (Option Job) :=
  withLock held (.ret (getJobAtomic s jid))

/-- Filter of the first SELECT in `get_next_job`:
`state = 'pending' AND (locked_by IS NULL OR locked_at IS NULL)`. -/
def pendingEligible (r : Row) : Bool :=
  r.state = "pending" && (r.locked_by.isNone || r.locked_at.isNone)

/-- Filter of the second SELECT in `get_next_job`: `state = 'failed' AND
attempts < max_retries AND (next_retry_at IS NULL OR next_retry_at <= now)
AND (locked_by IS NULL OR locked_at IS NULL)`. -/
def failedEligible (now : Nat) (r : Row) : Bool :=
  r.state = "failed" && decide (r.attempts < r.max_retries) &&
    (match r.next_retry_at with
     | none => true
     | some t => decide (t ≤ now)) &&
    (r.locked_by.isNone || r.locked_at.isNone)

/-- `ORDER BY created_at ASC`. -/
def createdLt (a b : Row) : Bool :=
  a.created_at < b.created_at

/-- `ORDER BY next_retry_at ASC, created_at ASC`; SQLite sorts NULL first
in ascending order. -/
def retryKeyLt (a b : Row) : Bool :=
  match a.next_retry_at, b.next_retry_at with
  | none, none => a.created_at < b.created_at
  | none, some _ => true
  | some _, none => false
  | some x, some y => x < y || (x = y && a.created_at < b.created_at)

/-- `ORDER BY … LIMIT 1`: a row minimal for `lt` (the first such row on
ties, matching SQLite's stable scan order). -/
def pickMin (lt : Row → Row → Bool) : Option Row → List Row → Option Row
  | acc, [] => acc
  | none, r :: rest => pickMin lt (some r) rest
  | some b, r :: rest => pickMin lt (some (if lt r b then r else b)) rest

/-- The first SELECT of `get_next_job`: oldest-created eligible pending
row, if any. -/
def selectPending (s : Store) : Option Row :=
  pickMin createdLt none (s.filter pendingEligible)

/-- The second SELECT of `get_next_job`: the retry-ready failed row
minimal in `(next_retry_at, created_at)`, if any. -/
def selectFailed (s : Store) (now : Nat) : Option Row :=
  pickMin retryKeyLt none (s.filter (failedEligible now))

/-- The part of `get_next_job` after the pending SELECT found nothing (or
its lock attempt returned `False` and control fell through): the failed
SELECT, then `lock_job`/`get_job` — both called while the frame still
holds the storage mutex.  `_row_to_job` preserves `id`, so the id handed
to `lock_job` is the row's id. -/
def failedBranch (s : Store) (wid : String) (now : Nat) : Exec (Option Job) :=
  match selectFailed s now with
  | some row =>
    match lock_job true s row.id wid now with
    | .deadlock => .deadlock
    | .ret (ok, s1) =>
      if ok then get_job true s1 row.id else .ret none
  | none => .ret none

/-- `JobStorage.get_next_job`.  The whole body runs inside
`with self._lock`, and the nested `self.lock_job`/`self.get_job` calls
re-enter the same non-reentrant mutex (`held = true`). -/
def get_next_job (s : Store) (wid : String) (now : Nat) : Exec (Option Job) :=
  withLock false
    (match selectPending s with
     | some row =>
       match lock_job true s row.id wid now with
       | .deadlock => .deadlock
       | .ret (ok, s1) =>
         if ok then get_job true s1 row.id else failedBranch s1 wid now
     | none => failedBranch s wid now)

/-- `Job.mark_completed`. -/
def mark_completed (j : Job) (now : Nat) : Job :=
  { j with state := .completed, updated_at := now, error_message := none }

/-- `Job.mark_failed`. -/
def mark_failed (j : Job) (e : String) (now : Nat) : Job :=
  { j with attempts := j.attempts + 1, state := .failed,
           updated_at := now, error_message := some e }

/-- `Job.mark_dead`. -/
def mark_dead (j : Job) (e : String) (now : Nat) : Job :=
  { j with state := .dead, updated_at := now, error_message := some e }

/-- `Job.should_retry` (its `backoff_base` argument is unused in the
source body as well). -/
def should_retry (j : Job) : Bool :=
  if j.state = JobState.completed then false
  else if j.max_retries ≤ j.attempts then false
  else true

/-- `Job.calculate_retry_delay`: `backoff_base ** attempts`. -/
def calculate_retry_delay (j : Job) (bb : Nat) : Nat :=
  bb ^ j.attempts

/-- `Job.set_next_retry_time`: `now + delay`; touches only
`next_retry_at`. -/
def set_next_retry_time (j : Job) (bb now : Nat) : Job :=
  { j with next_retry_at := some (now + calculate_retry_delay j bb) }

/-- The failure handling of `Worker._process_job`, identical in its three
exception arms: `mark_failed` with the (caller-truncated) message, then
retry scheduling or dead-lettering by `should_retry`. -/
def worker_fail_update (j : Job) (msg : String) (bb now : Nat) : Job :=
  let j1 := mark_failed j msg now
  if should_retry j1 then set_next_retry_time j1 bb now
  else mark_dead j1 ("Exceeded max retries (" ++ toString j1.max_retries ++ ")") now

/-- The store after a failing `_process_job` cycle: `update_job` with the
failure result, then the `finally:` `unlock_job`. -/
def workerFailPath (s : Store) (j : Job) (msg : String) (bb now : Nat) : Store :=
  unlock_job (update_job s (worker_fail_update j msg bb now)) j.id

/-- The store after a successful (`returncode == 0`) `_process_job`
cycle: `mark_completed`, `update_job`, then the `finally:` `unlock_job`. -/
def workerSuccessPath (s : Store) (j : Job) (now : Nat) : Store :=
  unlock_job (update_job s (mark_completed j now)) j.id

/-- The two error exits of the `dlq retry` CLI command. -/
inductive RetryErr where
  | notFound
  | notInDlq
deriving DecidableEq

/-- The `dlq retry` command of cli.py (`retryFromDlq` of the spec):
`get_job`, the two error exits, or the PENDING reset persisted with
`update_job`. -/
def retryFromDlq (s : Store) (jid : String) (now : Nat) :
    Option RetryErr × Store :=
  match getJobAtomic s jid with
  | none => (some .notFound, s)
  | some j =>
    if j.state ≠ JobState.dead then (some .notInDlq, s)
    else
      let j' := { j with state := .pending, attempts := 0,
                         error_message := none, next_retry_at := none,
                         updated_at := now }
      (none, update_job s j')

/-- Two `lock_job` bodies from different processes interleaved as: A's
read phase, B's read phase, A's write phase, B's write phase.  Each
process's `threading.Lock` is private to it, and the Python sqlite3
driver leaves the SELECT outside any write transaction, so nothing in the
code forbids this schedule.  Results are `total_changes > 0` computed at
each write. -/
def raceTwoReads (s : Store) (jid wA wB : String) (tA tB : Nat) :
    Bool × Bool × Store :=
  let blockedA := lockCheckBlocked s jid tA
  let blockedB := lockCheckBlocked s jid tB
  let sA := if blockedA then s else lockWrite s jid wA tA
  let resA := !blockedA && jobExists s jid
  let sB := if blockedB then sA else lockWrite sA jid wB tB
  let resB := !blockedB && jobExists sA jid
  (resA, resB, sB)

/-- A sequence of `lock_job` calls run to completion one after another —
the serialization the per-process storage mutex enforces — each attempt a
`(worker, time)` pair.  Returns the list of results and the final store. -/
def runLocks (s : Store) (jid : String) :
    List (String × Nat) → List Bool × Store
  | [] => ([], s)
  | (w, t) :: rest =>
    let out := lockJobAtomic s jid w t
    let tail := runLocks out.2 jid rest
    (out.1 :: tail.1, tail.2)

/-! ## Helper lemmas -/

/-- Parsing a state string produced by `JobState.value` recovers the
state. -/
theorem fromValue_value (st : JobState) :
    JobState.fromValue st.value = some st := by
  cases st <;> rfl

/-- `find?` by id commutes with mapping an id-preserving row transform
over the store. -/
theorem find?_map_by_id (f : Row → Row) (hf : ∀ x, (f x).id = x.id)
    (jid : String) (s : Store) :
    (s.map f).find? (fun r => r.id = jid) =
      (s.find? (fun r => r.id = jid)).map f := by
  induction s with
  | nil => rfl
  | cons a as ih =>
    by_cases h : a.id = jid
    · have h' : (f a).id = jid := by rw [hf]; exact h
      simp [List.find?_cons, h, h']
    · have h' : ¬ (f a).id = jid := by rw [hf]; exact h
      simp [List.find?_cons, h, h', ih]

/-- A row produced by `pickMin` comes from the accumulator or the list. -/
theorem pickMin_mem (lt : Row → Row → Bool) :
    ∀ (l : List Row) (acc : Option Row) (x : Row),
      pickMin lt acc l = some x → acc = some x ∨ x ∈ l := by
  intro l
  induction l with
  | nil => intro acc x h; cases acc <;> exact Or.inl h
  | cons r rest ih =>
    intro acc x h
    cases acc with
    | none =>
      rcases ih (some r) x h with h' | h'
      · exact Or.inr (by simp at h'; simp [h'])
      · exact Or.inr (by simp [h'])
    | some b =>
      rcases ih (some (if lt r b then r else b)) x h with h' | h'
      · by_cases hlt : lt r b
        · simp [hlt] at h'
          exact Or.inr (by simp [h'])
        · simp [hlt] at h'
          exact Or.inl (by simp [h'])
      · exact Or.inr (by simp [h'])

/-- A row selected by the pending query satisfies its filter. -/
theorem selectPending_eligible (s : Store) (r : Row)
    (h : selectPending s = some r) : pendingEligible r = true := by
  rcases pickMin_mem createdLt (s.filter pendingEligible) none r h with h' | h'
  · exact absurd h' (by simp)
  · exact (List.mem_filter.mp h').2

/-- A row selected by the retry query satisfies its filter. -/
theorem selectFailed_eligible (s : Store) (now : Nat) (r : Row)
    (h : selectFailed s now = some r) : failedEligible now r = true := by
  rcases pickMin_mem retryKeyLt (s.filter (failedEligible now)) none r h with h' | h'
  · exact absurd h' (by simp)
  · exact (List.mem_filter.mp h').2

/-- After the `lock_job` UPDATE touches an existing id, the first row
with that id carries the new lease. -/
theorem lockWrite_find (s : Store) (jid wid : String) (now : Nat) (r0 : Row)
    (h0 : s.find? (fun x => x.id = jid) = some r0) :
    (lockWrite s jid wid now).find? (fun x => x.id = jid) =
      some { r0 with locked_by := some wid, locked_at := some (some now),
                     state := JobState.processing.value } := by
  have hid : r0.id = jid := by
    have := List.find?_some h0
    simpa using this
  have hf : ∀ x : Row,
      ((fun r => if r.id = jid then
          { r with locked_by := some wid, locked_at := some (some now),
                   state := JobState.processing.value } else r) x).id = x.id := by
    intro x; by_cases hx : x.id = jid <;> simp [hx]
  rw [lockWrite, find?_map_by_id _ hf jid s, h0, Option.map_some']
  simp [hid]

/-- A `lock_job` body that meets a fresh lease returns `False` and leaves
the store untouched. -/
theorem fresh_blocked (s : Store) (jid : String) (r : Row) (w0 wid : String)
    (t0 t : Nat)
    (hfind : s.find? (fun x => x.id = jid) = some r)
    (hlb : r.locked_by = some w0) (hla : r.locked_at = some (some t0))
    (hfresh : t - t0 < 300) :
    lockJobAtomic s jid wid t = (false, s) := by
  have hb : lockCheckBlocked s jid t = true := by
    simp [lockCheckBlocked, hfind, hlb, hla, hfresh]
  simp [lockJobAtomic, hb]

/-- Serialized `lock_job` attempts against a fresh lease all fail, as
long as each attempt stays within 300 seconds of the lease time. -/
theorem fresh_all_fail (jid w0 : String) (t0 : Nat) :
    ∀ (rest : List (String × Nat)) (s0 : Store) (r : Row),
      s0.find? (fun x => x.id = jid) = some r →
      r.locked_by = some w0 → r.locked_at = some (some t0) →
      (∀ q ∈ rest, q.2 - t0 < 300) →
      (runLocks s0 jid rest).1.count true = 0 := by
  intro rest
  induction rest with
  | nil => intro s0 r _ _ _ _; simp [runLocks]
  | cons q rest ih =>
    intro s0 r hfind hlb hla h300
    obtain ⟨w', t'⟩ := q
    have hblock := fresh_blocked s0 jid r w0 w' t0 t' hfind hlb hla
      (h300 (w', t') (by simp))
    have htail := ih s0 r hfind hlb hla (fun q hq => h300 q (by simp [hq]))
    simp [runLocks, hblock, htail]

/-- `worker_fail_update` preserves the job id. -/
theorem worker_fail_update_id (j : Job) (msg : String) (bb now : Nat) :
    (worker_fail_update j msg bb now).id = j.id := by
  unfold worker_fail_update
  by_cases h : should_retry (mark_failed j msg now) = true
  · rw [if_pos h]; rfl
  · rw [if_neg h]; rfl

/-- On a non-final failure (`attempts + 1 < max_retries`) the worker's
failure handling schedules a retry `backoff_base ^ (attempts + 1)`
seconds out. -/
theorem worker_fail_update_retry (j : Job) (msg : String) (bb now : Nat)
    (h : j.attempts + 1 < j.max_retries) :
    worker_fail_update j msg bb now =
      { j with attempts := j.attempts + 1, state := .failed,
               updated_at := now, error_message := some msg,
               next_retry_at := some (now + bb ^ (j.attempts + 1)) } := by
  have hs : should_retry (mark_failed j msg now) = true := by
    simp [should_retry, mark_failed]
    omega
  simp only [worker_fail_update, hs, if_true]
  simp [set_next_retry_time, mark_failed, calculate_retry_delay]

/-- On a final failure (`max_retries ≤ attempts + 1`) the worker's
failure handling dead-letters the job with the exhaustion message,
leaving `next_retry_at` untouched. -/
theorem worker_fail_update_dead (j : Job) (msg : String) (bb now : Nat)
    (h : j.max_retries ≤ j.attempts + 1) :
    worker_fail_update j msg bb now =
      { j with attempts := j.attempts + 1, state := .dead,
               updated_at := now,
               error_message :=
                 some ("Exceeded max retries (" ++ toString j.max_retries ++ ")") } := by
  have hs : should_retry (mark_failed j msg now) = false := by
    simp [should_retry, mark_failed]
    omega
  simp only [worker_fail_update, hs, Bool.false_eq_true, if_false]
  simp [mark_dead, mark_failed]

/-- The row `update_job` followed by `unlock_job` leaves at a job's id:
the original row with all mutable columns taken from the job and the
lease cleared. -/
theorem find?_persist (s : Store) (j' : Job) (r : Row)
    (h : (unlock_job (update_job s j') j'.id).find?
        (fun x => x.id = j'.id) = some r) :
    ∃ r0, s.find? (fun x => x.id = j'.id) = some r0 ∧
      r = { r0 with
            command := j'.command, state := j'.state.value,
            attempts := j'.attempts, max_retries := j'.max_retries,
            updated_at := j'.updated_at, error_message := j'.error_message,
            next_retry_at := j'.next_retry_at,
            locked_by := none, locked_at := none } := by
  rw [unlock_job, update_job, List.map_map] at h
  have hf : ∀ x : Row,
      (((fun r => if r.id = j'.id then
            { r with locked_by := none, locked_at := none } else r) ∘
        (fun r => if r.id = j'.id then
            { r with
              command := j'.command, state := j'.state.value,
              attempts := j'.attempts, max_retries := j'.max_retries,
              updated_at := j'.updated_at, error_message := j'.error_message,
              next_retry_at := j'.next_retry_at, locked_by := j'.locked_by,
              locked_at := j'.locked_at } else r)) x).id = x.id := by
    intro x; by_cases hx : x.id = j'.id <;> simp [hx]
  rw [find?_map_by_id _ hf j'.id s] at h
  obtain ⟨r0, h0, hr⟩ := Option.map_eq_some'.mp h
  have hid : r0.id = j'.id := by
    have := List.find?_some h0
    simpa using this
  refine ⟨r0, h0, ?_⟩
  rw [show ({ r0 with
              command := j'.command, state := j'.state.value,
              attempts := j'.attempts, max_retries := j'.max_retries,
              updated_at := j'.updated_at, error_message := j'.error_message,
              next_retry_at := j'.next_retry_at,
              locked_by := none, locked_at := none } : Row) =
      { r0 with
        id := j'.id, command := j'.command, state := j'.state.value,
        attempts := j'.attempts, max_retries := j'.max_retries,
        updated_at := j'.updated_at, error_message := j'.error_message,
        next_retry_at := j'.next_retry_at,
        locked_by := none, locked_at := none } from by rw [← hid]]
  simp [hid] at hr
  exact hr.symm

/-! ## Concrete fixtures -/

/-- A freshly enqueued, unleased pending job. -/
def rowPend : Row :=
  { id := "j1", command := "true", state := "pending", attempts := 0,
    max_retries := 3, created_at := 0, updated_at := 0,
    error_message := none, next_retry_at := none,
    locked_by := none, locked_at := none }

/-- A store holding exactly `rowPend`. -/
def sPend : Store := [rowPend]

/-- A dead-lettered job as the worker leaves it: retries exhausted, the
stale `next_retry_at` of the previous failure still set, lease released. -/
def rowDead : Row :=
  { id := "j2", command := "false", state := "dead", attempts := 2,
    max_retries := 2, created_at := 0, updated_at := 10,
    error_message := some "Exceeded max retries (2)", next_retry_at := some 5,
    locked_by := none, locked_at := none }

/-- A store holding exactly `rowDead`. -/
def sDead : Store := [rowDead]

/-- The row the `dlq retry` command produces from `rowDead` at time 20. -/
def rowDeadReset : Row :=
  { rowDead with state := "pending", attempts := 0, updated_at := 20,
                 error_message := none, next_retry_at := none }

/-- A pending job under a lease taken by `w1` at time 0. -/
def rowStale : Row :=
  { id := "j4", command := "true", state := "pending", attempts := 0,
    max_retries := 3, created_at := 0, updated_at := 0,
    error_message := none, next_retry_at := none,
    locked_by := some "w1", locked_at := some (some 0) }

/-- A store holding exactly `rowStale`. -/
def sStale : Store := [rowStale]

/-- A claimed job on its second attempt (`attempts = 1` of
`max_retries = 2`), with the retry time its first failure scheduled. -/
def jC5 : Job :=
  { id := "j3", command := "false", state := .processing, attempts := 1,
    max_retries := 2, created_at := 0, updated_at := 60,
    error_message := some "boom1", next_retry_at := some 50,
    locked_by := some "w1", locked_at := some (some 60) }

/-- The stored row matching `jC5`. -/
def rowC5 : Row :=
  { id := "j3", command := "false", state := "processing", attempts := 1,
    max_retries := 2, created_at := 0, updated_at := 60,
    error_message := some "boom1", next_retry_at := some 50,
    locked_by := some "w1", locked_at := some (some 60) }

/-- A store holding exactly `rowC5`. -/
def sC5 : Store := [rowC5]

/-- The row persisted for `jC5` after its final, exhausting failure. -/
def rowC5Dead : Row :=
  { id := "j3", command := "false", state := "dead", attempts := 2,
    max_retries := 2, created_at := 0, updated_at := 100,
    error_message := some "Exceeded max retries (2)", next_retry_at := some 50,
    locked_by := none, locked_at := none }

/-! ## Claim theorems -/

/-- Claim C1, counterexample.  Two `lock_job` bodies from different
worker processes, interleaved read-read-write-write on a store holding
one unleased pending job, both return `True`: the lease write is an
unconditional UPDATE, so worker B succeeds even though at its write time
the store holds the lease worker A wrote moments before — a lease so
fresh that a re-run of the freshness check (third conjunct) would call it
held.  This refutes "at most one attempt succeeds while the job's lease
is fresh" for concurrent cross-process attempts. -/
theorem c1_race_two_workers_both_succeed :
    (raceTwoReads sPend "j1" "wA" "wB" 100 100).1 = true ∧
    (raceTwoReads sPend "j1" "wA" "wB" 100 100).2.1 = true ∧
    lockCheckBlocked (lockWrite sPend "j1" "wA" 100) "j1" 100 = true := by
  exact ⟨by decide, by decide, by decide⟩

/-- Claim C2, evaluated at the failing input.  On a store holding a
single unleased pending job, `get_next_job` finds the candidate and calls
`self.lock_job` while still inside `with self._lock`; the non-reentrant
`threading.Lock` blocks the thread forever, so acquire never returns —
contradicting "terminates and returns either a claimed job record or 'no
job available'".  Only when no candidate exists (second conjunct, empty
store) does it return "no job available". -/
theorem c2_get_next_job_deadlocks :
    get_next_job sPend "w1" 0 = Exec.deadlock ∧
    get_next_job ([] : Store) "w1" 0 = Exec.ret none := by
  exact ⟨by decide, by decide⟩

/-- Claim C3, counterexample.  A pending job whose lease, taken at time
0, is 400 seconds old (stale: 400 ≥ 300) is NOT claimable through
acquire: `get_next_job` by a different worker returns "no job available"
because its candidate SELECT excludes every row whose `locked_by` and
`locked_at` are both set, regardless of age.  The second conjunct shows
`lock_job` itself would have granted the stale lease, so the failure is
in candidate selection. -/
theorem c3_stale_lease_not_claimed_by_acquire :
    get_next_job sStale "w2" 400 = Exec.ret none ∧
    (lockJobAtomic sStale "j4" "w2" 400).1 = true := by
  exact ⟨by decide, by decide⟩

/-- Claim C5, counterexample.  A job failing its last attempt
(`attempts` 1 → 2 of `max_retries = 2`) is persisted as DEAD with the
exhaustion message, but `next_retry_at` keeps the value its previous
failure scheduled (`some 50`): `mark_dead` never clears it, refuting
"next_retry_at = null". -/
theorem c5_dead_job_keeps_next_retry_at :
    workerFailPath sC5 jC5 "boom2" 2 100 = [rowC5Dead] ∧
    rowC5Dead.state = "dead" ∧
    rowC5Dead.error_message = some "Exceeded max retries (2)" ∧
    rowC5Dead.next_retry_at = some 50 := by
  exact ⟨by decide, by decide, by decide, by decide⟩

/-- Claim C9, evaluated at the failing input.  The `dlq retry` command:
on a missing id it reports not-found leaving the store unchanged; on a
non-DEAD job it reports not-in-DLQ leaving the store unchanged; on a DEAD
job it persists state PENDING, `attempts = 0`, cleared error and retry
time (first conjunct, exact resulting store).  But the claim's final
part fails: the subsequent acquire does not claim the reset job — the
fourth conjunct shows `get_next_job` deadlocks on it, re-entering the
storage mutex inside `lock_job`. -/
theorem c9_dlq_retry_resets_but_acquire_deadlocks :
    retryFromDlq sDead "j2" 20 = (none, [rowDeadReset]) ∧
    retryFromDlq sDead "nope" 20 = (some RetryErr.notFound, sDead) ∧
    retryFromDlq sPend "j1" 20 = (some RetryErr.notInDlq, sPend) ∧
    get_next_job [rowDeadReset] "w2" 30 = Exec.deadlock := by
  exact ⟨by decide, by decide, by decide, by decide⟩

/-- Claim C1, amended.  When the `lock_job` attempts are serialized —
each body running to completion before the next starts, which is what
the per-process storage mutex enforces for attempts within one process —
at most one of any number of attempts on a given job succeeds, as long
as every later attempt happens less than 300 seconds after every earlier
one (the winner's lease is still fresh).  Cross-process, nothing
serializes the read and write phases, and `c1_race_two_workers_both_succeed`
shows two interleaved attempts both succeeding. -/
theorem c1_serialized_lock_attempts_at_most_one_succeeds
    (s : Store) (jid : String) (l : List (String × Nat))
    (hl : l.Pairwise (fun p q => q.2 - p.2 < 300)) :
    ((runLocks s jid l).1.count true) ≤ 1 := by
  induction l generalizing s with
  | nil => simp [runLocks]
  | cons p rest ih =>
    obtain ⟨w, t⟩ := p
    rw [List.pairwise_cons] at hl
    obtain ⟨hhead, htail⟩ := hl
    by_cases hb : lockCheckBlocked s jid t = true
    · have hout : lockJobAtomic s jid w t = (false, s) := by
        simp [lockJobAtomic, hb]
      simpa [runLocks, hout] using ih s htail
    · have hnb : lockCheckBlocked s jid t = false := by
        simpa using hb
      cases hfind : s.find? (fun x => x.id = jid) with
      | none =>
        have hex : jobExists s jid = false := by simp [jobExists, hfind]
        have hout : lockJobAtomic s jid w t = (false, lockWrite s jid w t) := by
          simp [lockJobAtomic, hnb, hex]
        simpa [runLocks, hout] using ih (lockWrite s jid w t) htail
      | some r0 =>
        have hex : jobExists s jid = true := by simp [jobExists, hfind]
        have hout : lockJobAtomic s jid w t = (true, lockWrite s jid w t) := by
          simp [lockJobAtomic, hnb, hex]
        have hfind' := lockWrite_find s jid w t r0 hfind
        have hzero := fresh_all_fail jid w t rest (lockWrite s jid w t) _
          hfind' rfl rfl (fun q hq => hhead q hq)
        simp [runLocks, hout, hzero]

/-- Claim C1, witness for the amended theorem: two serialized attempts
20 seconds apart on the one-pending-job store; the attempt times are
pairwise within the lease window and at most one attempt succeeds. -/
theorem c1_serialized_lock_attempts_witness :
    (([("wA", 10), ("wB", 30)] : List (String × Nat)).Pairwise
      (fun p q => q.2 - p.2 < 300)) ∧
    ((runLocks sPend "j1" [("wA", 10), ("wB", 30)]).1.count true) ≤ 1 :=
  ⟨by decide,
   c1_serialized_lock_attempts_at_most_one_succeeds sPend "j1"
     [("wA", 10), ("wB", 30)] (by decide)⟩

/-- Claim C3, amended.  For a job whose stored lease has both fields set
(`locked_by = wOld`, `locked_at` parsing to `tL`): a direct `lock_job`
body by another worker at time `t` succeeds when the lease age is at
least 300 seconds and returns `False` leaving the store untouched when
it is younger; but neither candidate query of `get_next_job` can select
such a row — fully-leased rows are filtered out regardless of age — so
stale-lease reclamation never happens through acquire. -/
theorem c3_stale_lease_lock_vs_selection
    (s : Store) (jid wOld wNew : String) (tL t : Nat) (r : Row)
    (hfind : s.find? (fun x => x.id = jid) = some r)
    (hlb : r.locked_by = some wOld)
    (hla : r.locked_at = some (some tL)) :
    (300 ≤ t - tL → (lockJobAtomic s jid wNew t).1 = true) ∧
    (t - tL < 300 → lockJobAtomic s jid wNew t = (false, s)) ∧
    selectPending s ≠ some r ∧
    (∀ now, selectFailed s now ≠ some r) := by
  refine ⟨?_, ?_, ?_, ?_⟩
  · intro hstale
    have hnb : lockCheckBlocked s jid t = false := by
      simp [lockCheckBlocked, hfind, hlb, hla]
      omega
    have hex : jobExists s jid = true := by simp [jobExists, hfind]
    simp [lockJobAtomic, hnb, hex]
  · intro hfresh
    exact fresh_blocked s jid r wOld wNew tL t hfind hlb hla hfresh
  · intro hsel
    have h := selectPending_eligible s r hsel
    simp [pendingEligible, hlb, hla] at h
  · intro now hsel
    have h := selectFailed_eligible s now r hsel
    simp [failedEligible, hlb, hla] at h

/-- Claim C3, witness for the amended theorem, on the concrete pending
job whose lease was taken at time 0: at time 400 the stale lease is
lockable directly, at time 100 the fresh lease is refused with the store
unchanged, and the row is never a pending candidate. -/
theorem c3_stale_lease_lock_vs_selection_witness :
    (lockJobAtomic sStale "j4" "w2" 400).1 = true ∧
    lockJobAtomic sStale "j4" "w2" 100 = (false, sStale) ∧
    selectPending sStale ≠ some rowStale :=
  ⟨(c3_stale_lease_lock_vs_selection sStale "j4" "w1" "w2" 0 400 rowStale
      (by decide) (by decide) (by decide)).1 (by decide),
   (c3_stale_lease_lock_vs_selection sStale "j4" "w1" "w2" 0 100 rowStale
      (by decide) (by decide) (by decide)).2.1 (by decide),
   (c3_stale_lease_lock_vs_selection sStale "j4" "w1" "w2" 0 400 rowStale
      (by decide) (by decide) (by decide)).2.2.1⟩

/-- Claim C10.  A lease whose `locked_by` is set but whose `locked_at`
is NULL, or a non-null string `datetime.fromisoformat` rejects, is
treated as stale: `lock_job` raises no error, returns `True`, and the
job's row afterwards carries the requesting worker's fresh lease. -/
theorem c10_lock_job_grants_on_unparseable_locked_at
    (s : Store) (jid wOld wNew : String) (t : Nat) (r : Row)
    (hfind : s.find? (fun x => x.id = jid) = some r)
    (hlb : r.locked_by = some wOld)
    (hla : r.locked_at = none ∨ r.locked_at = some none) :
    (lockJobAtomic s jid wNew t).1 = true ∧
    (lockJobAtomic s jid wNew t).2.find? (fun x => x.id = jid) =
      some { r with locked_by := some wNew, locked_at := some (some t),
                    state := JobState.processing.value } := by
  have hnb : lockCheckBlocked s jid t = false := by
    rcases hla with hla | hla <;> simp [lockCheckBlocked, hfind, hlb, hla]
  have hex : jobExists s jid = true := by simp [jobExists, hfind]
  constructor
  · simp [lockJobAtomic, hnb, hex]
  · have h2 : (lockJobAtomic s jid wNew t).2 = lockWrite s jid wNew t := by
      simp [lockJobAtomic, hnb]
    rw [h2]
    exact lockWrite_find s jid wNew t r hfind

/-- A job whose lease has `locked_by` set but `locked_at` NULL — e.g. a
row written by `update_job` from a job object that carried a worker id
but no lock time. -/
def rowNoTs : Row :=
  { id := "j10", command := "true", state := "processing", attempts := 0,
    max_retries := 3, created_at := 0, updated_at := 0,
    error_message := none, next_retry_at := none,
    locked_by := some "w1", locked_at := none }

/-- A store holding exactly `rowNoTs`. -/
def sNoTs : Store := [rowNoTs]

/-- Claim C10, witness: on the concrete half-lease row, `lock_job` by
`w2` at time 7 grants the lock and installs `w2`'s lease. -/
theorem c10_lock_job_grants_on_unparseable_locked_at_witness :
    (lockJobAtomic sNoTs "j10" "w2" 7).1 = true ∧
    (lockJobAtomic sNoTs "j10" "w2" 7).2.find? (fun x => x.id = "j10") =
      some { rowNoTs with locked_by := some "w2", locked_at := some (some 7),
                          state := JobState.processing.value } :=
  c10_lock_job_grants_on_unparseable_locked_at sNoTs "j10" "w1" "w2" 7 rowNoTs
    (by decide) (by decide) (Or.inl (by decide))

/-- Claim C4.  After a failing `_process_job` cycle, the persisted row
for the job has `attempts` incremented once, is DEAD exactly when that
increment reaches (or passes) `max_retries` — so never on any earlier
failure, where it stays FAILED — and no row is ever left FAILED with
`attempts ≥ max_retries`. -/
theorem c4_exhaustion_dead_exactly_at_max_retries
    (s : Store) (j : Job) (msg : String) (bb now : Nat) (r : Row)
    (hfind : (workerFailPath s j msg bb now).find?
        (fun x => x.id = j.id) = some r) :
    (r.state = "dead" ↔ j.max_retries ≤ j.attempts + 1) ∧
    (j.attempts + 1 < j.max_retries → r.state = "failed") ∧
    r.attempts = j.attempts + 1 ∧
    ¬(r.state = "failed" ∧ j.max_retries ≤ r.attempts) := by
  rw [workerFailPath, ← worker_fail_update_id j msg bb now] at hfind
  obtain ⟨r0, h0, hr⟩ := find?_persist s (worker_fail_update j msg bb now) r hfind
  subst hr
  by_cases hretry : j.attempts + 1 < j.max_retries
  · rw [worker_fail_update_retry j msg bb now hretry]
    simp [JobState.value]
    omega
  · rw [worker_fail_update_dead j msg bb now (by omega)]
    simp [JobState.value]
    omega

/-- Claim C4, witness: the job failing its second of two allowed
attempts is persisted DEAD with `attempts = 2`. -/
theorem c4_exhaustion_dead_exactly_at_max_retries_witness :
    (rowC5Dead.state = "dead" ↔ jC5.max_retries ≤ jC5.attempts + 1) ∧
    (jC5.attempts + 1 < jC5.max_retries → rowC5Dead.state = "failed") ∧
    rowC5Dead.attempts = jC5.attempts + 1 ∧
    ¬(rowC5Dead.state = "failed" ∧ jC5.max_retries ≤ rowC5Dead.attempts) :=
  c4_exhaustion_dead_exactly_at_max_retries sC5 jC5 "boom2" 2 100 rowC5Dead
    (by decide)

/-- Claim C5, amended.  When a failure exhausts the retries
(`max_retries ≤ attempts + 1`), the persisted row is DEAD with the
"Exceeded max retries (k)" exhaustion message — but `next_retry_at` is
left at whatever value the job carried into the failure (the previous
failure's schedule), not cleared to null. -/
theorem c5_dead_letter_persisted_fields
    (s : Store) (j : Job) (msg : String) (bb now : Nat) (r : Row)
    (hexh : j.max_retries ≤ j.attempts + 1)
    (hfind : (workerFailPath s j msg bb now).find?
        (fun x => x.id = j.id) = some r) :
    r.state = "dead" ∧
    r.error_message =
      some ("Exceeded max retries (" ++ toString j.max_retries ++ ")") ∧
    r.next_retry_at = j.next_retry_at := by
  rw [workerFailPath, ← worker_fail_update_id j msg bb now] at hfind
  obtain ⟨r0, h0, hr⟩ := find?_persist s (worker_fail_update j msg bb now) r hfind
  subst hr
  rw [worker_fail_update_dead j msg bb now hexh]
  simp [JobState.value]

/-- Claim C5, witness for the amended theorem at the concrete exhausted
job: DEAD, exhaustion message, and `next_retry_at` still `some 50`. -/
theorem c5_dead_letter_persisted_fields_witness :
    rowC5Dead.state = "dead" ∧
    rowC5Dead.error_message =
      some ("Exceeded max retries (" ++ toString jC5.max_retries ++ ")") ∧
    rowC5Dead.next_retry_at = jC5.next_retry_at :=
  c5_dead_letter_persisted_fields sC5 jC5 "boom2" 2 100 rowC5Dead
    (by decide) (by decide)

/-- Claim C6.  After a `_process_job` cycle whose command exits 0, the
persisted row has state COMPLETED, a cleared error message, the
`attempts` counter exactly as it was, and the lease released by the
`finally:` unlock. -/
theorem c6_success_postcondition
    (s : Store) (j : Job) (now : Nat) (r : Row)
    (hfind : (workerSuccessPath s j now).find?
        (fun x => x.id = j.id) = some r) :
    r.state = "completed" ∧ r.error_message = none ∧
    r.attempts = j.attempts ∧ r.locked_by = none ∧ r.locked_at = none := by
  have hid : (mark_completed j now).id = j.id := rfl
  rw [workerSuccessPath, ← hid] at hfind
  obtain ⟨r0, h0, hr⟩ := find?_persist s (mark_completed j now) r hfind
  subst hr
  simp [mark_completed, JobState.value]

/-- A claimed job about to succeed, and its stored row. -/
def jC6 : Job :=
  { id := "j6", command := "true", state := .processing, attempts := 1,
    max_retries := 3, created_at := 0, updated_at := 5,
    error_message := some "old error", next_retry_at := some 4,
    locked_by := some "w1", locked_at := some (some 5) }

/-- The stored row matching `jC6`. -/
def rowC6 : Row :=
  { id := "j6", command := "true", state := "processing", attempts := 1,
    max_retries := 3, created_at := 0, updated_at := 5,
    error_message := some "old error", next_retry_at := some 4,
    locked_by := some "w1", locked_at := some (some 5) }

/-- The row persisted for `jC6` after its successful cycle at time 9. -/
def rowC6Done : Row :=
  { id := "j6", command := "true", state := "completed", attempts := 1,
    max_retries := 3, created_at := 0, updated_at := 9,
    error_message := none, next_retry_at := some 4,
    locked_by := none, locked_at := none }

/-- Claim C6, witness at the concrete claimed job: COMPLETED, no error,
`attempts` still 1, lease cleared. -/
theorem c6_success_postcondition_witness :
    rowC6Done.state = "completed" ∧ rowC6Done.error_message = none ∧
    rowC6Done.attempts = jC6.attempts ∧ rowC6Done.locked_by = none ∧
    rowC6Done.locked_at = none :=
  c6_success_postcondition [rowC6] jC6 9 rowC6Done (by decide)

/-- Claim C7.  The delay `calculate_retry_delay` computes after
`mark_failed` has incremented the attempt counter is
`backoff_base ^ (attempts + 1)` — the exponent counts the current
failure — `set_next_retry_time` schedules the retry exactly that far in
the future, and for any base above 1 the delay at `attempts + 1`
strictly exceeds the delay at `attempts`. -/
theorem c7_backoff_delay_law
    (j : Job) (e : String) (bb now a : Nat) (hbb : 1 < bb) :
    calculate_retry_delay (mark_failed j e now) bb = bb ^ (j.attempts + 1) ∧
    (set_next_retry_time (mark_failed j e now) bb now).next_retry_at =
      some (now + bb ^ (j.attempts + 1)) ∧
    calculate_retry_delay { j with attempts := a + 1 } bb >
      calculate_retry_delay { j with attempts := a } bb := by
  refine ⟨rfl, rfl, ?_⟩
  simp only [calculate_retry_delay]
  exact Nat.pow_lt_pow_right hbb (Nat.lt_succ_self a)

/-- Claim C7, witness at base 2: delay after the failure incrementing
`attempts` to 2 is `2 ^ 2`, the retry is scheduled at `now + 4`, and the
delay grows strictly from exponent 3 to 4. -/
theorem c7_backoff_delay_law_witness :
    calculate_retry_delay (mark_failed jC5 "x" 100) 2 = 2 ^ (jC5.attempts + 1) ∧
    (set_next_retry_time (mark_failed jC5 "x" 100) 2 100).next_retry_at =
      some (100 + 2 ^ (jC5.attempts + 1)) ∧
    calculate_retry_delay { jC5 with attempts := 3 + 1 } 2 >
      calculate_retry_delay { jC5 with attempts := 3 } 2 :=
  c7_backoff_delay_law jC5 "x" 2 100 3 (by decide)

/-- Claim C8.  When `add_job` inserts a job (no duplicate id), fetching
that id returns a record agreeing with the original in every persisted
field — id, command, state, attempts, max_retries, created_at,
updated_at, error_message, next_retry_at; only the lease attributes,
which the INSERT leaves NULL, are `none`. -/
theorem c8_round_trip_add_get
    (s : Store) (j : Job) (s' : Store) (h : add_job s j = .ok s') :
    getJobAtomic s' j.id =
      some { j with locked_by := none, locked_at := none } := by
  unfold add_job at h
  by_cases hdup : s.any (fun r => r.id = j.id) = true
  · rw [if_pos hdup] at h
    exact absurd h (by simp)
  · rw [if_neg hdup] at h
    injection h with h'
    subst h'
    have hnone : s.find? (fun r => r.id = j.id) = none := by
      rw [List.find?_eq_none]
      intro x hx
      have := List.any_eq_false.mp (Bool.not_eq_true _ |>.mp hdup) x hx
      simpa using this
    rw [getJobAtomic, List.find?_append, hnone]
    simp [job_to_row, row_to_job, fromValue_value]

/-- A job carrying a value in every persisted field, for the round-trip
witness. -/
def jC8 : Job :=
  { id := "j8", command := "echo hi", state := .failed, attempts := 2,
    max_retries := 5, created_at := 3, updated_at := 4,
    error_message := some "boom", next_retry_at := some 11,
    locked_by := none, locked_at := none }

/-- Claim C8, witness: inserting `jC8` into the empty store and fetching
`"j8"` returns every field of `jC8`. -/
theorem c8_round_trip_add_get_witness :
    getJobAtomic [job_to_row jC8] jC8.id =
      some { jC8 with locked_by := none, locked_at := none } :=
  c8_round_trip_add_get [] jC8 [job_to_row jC8] (by rfl)

end QueueCtl
